import Mathlib

/-!
Shallow embedding of the tutor-data-standard validation core.

The JavaScript sources embedded here:
* `src/validator/data_validator.html` — `validateData` (strict school policy and the
  provider/session branch);
* `src/validator/refactor/schoolValidator.js` — `validateSchoolData` (lenient policy);
* `src/validator/merge.html` — `parseAndMerge` (left join of provider/school CSVs);
* `src/unnamed/part_002` — `generateOutput` (summary record);
* `src/validator/refactor/summaryGenerator.js` — `generateSummary` (same percent logic).

Modelling conventions: a table is a list of rows, row 0 the header; a cell is
`Option String`, where `none` stands for the JavaScript `undefined` (and `null`) that
arises when a data row is shorter than the header row or a JSON record lacks a key.
Numbers from the spreadsheet path are not modelled; every claim under study concerns
string cells.  JavaScript string coercions (`String(v)`, template literals, and the
coercion performed by `RegExp.test` / `parseInt` on non-strings) turn `undefined`
into the string `"undefined"`, modelled by `jsToString`.
-/

/-- A table cell: `some s` a string value, `none` the JS `undefined`/`null`. -/
abbrev Cell := Option String

/-- JS `String(v)` coercion as it applies to our cells: `undefined` prints as
`"undefined"`. -/
def jsToString : Cell → String
  | none => "undefined"
  | some s => s

/-- The empty-row test of every validator:
`cell` strictly equal to the empty string, to null, or to undefined. -/
def isEmptyCell : Cell → Bool
  | none => true
  | some s => s == ""

/-- Model of the JS `trim()`: drop whitespace from both ends.  Implemented over
the character list so that kernel reduction can evaluate it on closed tables. -/
def jsTrim (s : String) : String :=
  String.mk (((s.toList.dropWhile Char.isWhitespace).reverse.dropWhile
    Char.isWhitespace).reverse)

/-- Model of the JS `toLowerCase()` on the ASCII data at hand. -/
def jsToLower (s : String) : String :=
  String.mk (s.toList.map Char.toLower)

/-- ASCII digit test, the `\d` character class of the validator regexes. -/
def isDigitChar (c : Char) : Bool := '0' ≤ c && c ≤ '9'

/-- Test of the regex `/^\d+$/` — one or more digits and nothing else. -/
def isDigitRun (s : String) : Bool := s.length != 0 && s.toList.all isDigitChar

/-- Test of the length-bounded digit regexes — exactly `n` digits. -/
def isDigitsOfLen (n : Nat) (s : String) : Bool :=
  s.length == n && s.toList.all isDigitChar

/-- Value of a digit string (used under parses that have already isolated digits). -/
def digitsToNat (cs : List Char) : Nat :=
  cs.foldl (fun n c => n * 10 + (c.toNat - 48)) 0

/-- Model of JS `parseInt(value, 10)`: skip leading whitespace, read an optional
sign and then the longest run of decimal digits; `none` models `NaN` (no digits).
Digit runs long enough to lose precision in a JS double are not exercised by any
claim; range comparisons against the small validator bounds are unaffected. -/
def jsParseInt (s : String) : Option Int :=
  let cs := s.toList.dropWhile (fun c => c.isWhitespace)
  match cs with
  | '-' :: rest =>
    let ds := rest.takeWhile isDigitChar
    if ds.isEmpty then none else some (-(digitsToNat ds : Int))
  | '+' :: rest =>
    let ds := rest.takeWhile isDigitChar
    if ds.isEmpty then none else some (digitsToNat ds : Int)
  | _ =>
    let ds := cs.takeWhile isDigitChar
    if ds.isEmpty then none else some (digitsToNat ds : Int)

/-- Model of JS `parseFloat(value)`: longest numeric-literal prefix
`[sign] digits [. digits] [e [sign] digits]` after leading whitespace; `none`
models `NaN`.  The parsed number is kept exactly as a pair `(num, k)` denoting
`num / 10 ^ k`; the validator uses the value only in the tests `isNaN(x)` and
`x <= 0`, and the latter holds exactly when `num ≤ 0`.  The `Infinity` literal
is not modelled (no validator input under study produces it). -/
def jsParseFloat (s : String) : Option (Int × Nat) :=
  let cs := s.toList.dropWhile (fun c => c.isWhitespace)
  let (neg, cs) : Bool × List Char :=
    match cs with
    | '-' :: rest => (true, rest)
    | '+' :: rest => (false, rest)
    | _ => (false, cs)
  let intDs := cs.takeWhile isDigitChar
  let cs := cs.drop intDs.length
  let (fracDs, cs) : List Char × List Char :=
    match cs with
    | '.' :: rest => (rest.takeWhile isDigitChar, rest.drop (rest.takeWhile isDigitChar).length)
    | _ => ([], cs)
  if intDs.isEmpty && fracDs.isEmpty then none
  else
    let m : Int := (digitsToNat (intDs ++ fracDs) : Int)
    let num : Int := if neg then -m else m
    let k : Nat := fracDs.length
    let e : Int :=
      match cs with
      | 'e' :: rest | 'E' :: rest =>
        match rest with
        | '-' :: rest2 =>
          let eds := rest2.takeWhile isDigitChar
          if eds.isEmpty then 0 else -(digitsToNat eds : Int)
        | '+' :: rest2 =>
          let eds := rest2.takeWhile isDigitChar
          if eds.isEmpty then 0 else (digitsToNat eds : Int)
        | _ =>
          let eds := rest.takeWhile isDigitChar
          if eds.isEmpty then 0 else (digitsToNat eds : Int)
      | _ => 0
    if 0 ≤ e then some (num * (10 : Int) ^ e.toNat, k)
    else some (num, k + e.natAbs)

/-- Index used by the `rowData` construction: `headers.forEach` assigns `rowData[header] = row[idx]`
assigns in header order, so a duplicated header name keeps the cell of its *last*
occurrence.  Returns that index. -/
def lastIdxOf (headers : List String) (field : String) : Option Nat :=
  headers.enum.foldl (fun acc p => if p.2 = field then some p.1 else acc) none

/-- Lookup `rowData[field]` — the cell a field name maps to.  A field absent from the
header, or an index beyond the length of the row, yields `undefined` (`none`). -/
def rowValue (headers : List String) (row : List Cell) (field : String) : Cell :=
  match lastIdxOf headers field with
  | none => none
  | some i => row.getD i none

/-- Model of `expectedHeaders.filter(h => !headerSet.has(h))` — the missing-header report,
shared verbatim by every validator copy. -/
def missingHeaders (expected headers : List String) : List String :=
  expected.filter (fun h => !(headers.contains h))

/-- Model of `rows[0].map(header => header.trim())`.  Header rows produced by all three
ingestion paths are string cells; `jsToString` is exercised only on strings here. -/
def headersOf (rows : List (List Cell)) : List String :=
  (rows.headD []).map (fun c => jsTrim (jsToString c))

/-! ### The JS `Date` model

`new Date(year, monthIndex, day)` normalises its arguments over the proleptic
Gregorian calendar (ECMAScript `MakeDay`): two-digit years map to `1900 + year`,
month overflow rolls into the year, and day overflow rolls through the calendar.
The conversions between a civil date and a count of days since 1970-01-01 follow
the standard era-based civil-calendar arithmetic. -/

/-- Days since 1970-01-01 of the civil date `y-m-d` (proleptic Gregorian). -/
def daysFromCivil (y m d : Int) : Int :=
  let yy := if m ≤ 2 then y - 1 else y
  let era := Int.fdiv yy 400
  let yoe := yy - era * 400
  let mp := if 2 < m then m - 3 else m + 9
  let doy := Int.fdiv (153 * mp + 2) 5 + d - 1
  let doe := yoe * 365 + Int.fdiv yoe 4 - Int.fdiv yoe 100 + doy
  era * 146097 + doe - 719468

/-- Civil date `(y, m, d)` of a count of days since 1970-01-01. -/
def civilFromDays (z : Int) : Int × Int × Int :=
  let z2 := z + 719468
  let era := Int.fdiv z2 146097
  let doe := z2 - era * 146097
  let yoe := Int.fdiv (doe - Int.fdiv doe 1460 + Int.fdiv doe 36524 - Int.fdiv doe 146096) 365
  let y := yoe + era * 400
  let doy := doe - (365 * yoe + Int.fdiv yoe 4 - Int.fdiv yoe 100)
  let mp := Int.fdiv (5 * doy + 2) 153
  let d := doy - Int.fdiv (153 * mp + 2) 5 + 1
  let m := if mp < 10 then mp + 3 else mp - 9
  (if m ≤ 2 then y + 1 else y, m, d)

/-- The components `(getFullYear(), getMonth() + 1, getDate())` observed on
`new Date(year, monthIndex, day)`. -/
def jsDateComponents (year monthIndex day : Int) : Int × Int × Int :=
  let y := if 0 ≤ year ∧ year ≤ 99 then 1900 + year else year
  let ym := y * 12 + monthIndex
  let ny := Int.fdiv ym 12
  let nm := ym - 12 * ny
  civilFromDays (daysFromCivil ny (nm + 1) 1 + (day - 1))

/-- The round-trip test of the session-date validator: after
`new Date(year, month - 1, day)`, do `getFullYear`/`getMonth`/`getDate` give back
the parsed components? -/
def jsDateRoundTrip (year month day : Int) : Bool :=
  jsDateComponents year (month - 1) day == (year, month, day)

/-! ### Shared row-engine state for the two school-validator copies

Both copies accumulate an error list plus three JS `Set`s of observed values
(`uniqueEthnicities`, `uniquePerformanceLevelsPrior`, `uniquePerformanceLevelsCurrent`).
A JS `Set` keeps insertion order and distinguishes `undefined` from the string
`"undefined"`, exactly as `List Cell` with an insert-if-new operation does. -/

/-- Model of `Set.add`: append the value unless already present (SameValueZero equality). -/
def jsSetInsert (s : List Cell) (v : Cell) : List Cell :=
  if v ∈ s then s else s ++ [v]

/-- State threaded through the school row loop. -/
structure AggState where
  errors : List String
  eth : List Cell
  perfPrior : List Cell
  perfCurr : List Cell
deriving DecidableEq, Repr

/-- One `expectedHeaders.forEach(field => ...)` step: the ethnicity and
performance-level validators add the value to their sets and return no error;
any error returned is pushed as `Row N: <message>`. -/
def applyField (check : String → Cell → Option String) (rowNum : Nat)
    (st : AggState) (field : String) (v : Cell) : AggState :=
  let st :=
    if field = "ethnicity" then { st with eth := jsSetInsert st.eth v }
    else if field = "performance_level_prior_year" then
      { st with perfPrior := jsSetInsert st.perfPrior v }
    else if field = "performance_level_current_year" then
      { st with perfCurr := jsSetInsert st.perfCurr v }
    else st
  match check field v with
  | some m => { st with errors := st.errors ++ ["Row " ++ toString rowNum ++ ": " ++ m] }
  | none => st

/-- Body of one iteration of the row loop: skip a row whose every cell is empty,
otherwise apply the validator of each expected field to the cell the header maps
it to, displaying the row as `index + 2`. -/
def rowStep (check : String → Cell → Option String) (expected headers : List String)
    (st : AggState) (p : Nat × List Cell) : AggState :=
  if p.2.all isEmptyCell then st
  else expected.foldl (fun st f => applyField check (p.1 + 2) st f (rowValue headers p.2 f)) st

/-- Model of `rows.slice(1).forEach((row, index) => ...)` — the whole row loop. -/
def processRows (check : String → Cell → Option String) (expected headers : List String)
    (dataRows : List (List Cell)) : AggState :=
  dataRows.enum.foldl (rowStep check expected headers) ⟨[], [], [], []⟩

/-- Outcome of one school-validator invocation: the early empty-file return, the
missing-header return, or the final error list (`isValid` ⟺ the list is empty). -/
inductive SchoolResult
  | emptyFile
  | headerError (missing : List String)
  | report (errors : List String)
deriving DecidableEq, Repr

/-! ### The strict school validator — `validateData` in `src/validator/data_validator.html` -/

namespace Strict

/-- Header list `expectedHeaders` of the strict copy.  Its last entry is the literal
`"economic disadvantage"`, with a space. -/
def expectedHeaders : List String :=
  ["student_id", "district_id", "district_name", "school_id", "school_name",
   "current_grade_level", "gender", "ethnicity", "ell", "iep", "gifted_flag",
   "homeless_flag", "ela_state_score_two_years_ago", "ela_state_score_one_year_ago",
   "ela_state_score_current_year", "math_state_score_two_years_ago",
   "math_state_score_one_year_ago", "math_state_score_current_year",
   "performance_level_prior_year", "performance_level_current_year", "disability",
   "economic disadvantage"]

/-- The six identical state-score validators:
`parseInt(value, 10)` then `isNaN(intValue) || intValue < 650 || intValue > 800`. -/
def scoreCheck (field : String) (v : Cell) : Option String :=
  let m := "Invalid " ++ field ++ " \"" ++ jsToString v ++
    "\" (should be integer between 650 and 800)"
  match jsParseInt (jsToString v) with
  | none => some m
  | some n => if n < 650 || 800 < n then some m else none

/-- The boolean-flag validators: value strictly equal to "TRUE" or "FALSE". -/
def boolCheck (field : String) (v : Cell) : Option String :=
  if v = some "TRUE" ∨ v = some "FALSE" then none
  else some ("Invalid " ++ field ++ " \"" ++ jsToString v ++
    "\" (should be \"TRUE\" or \"FALSE\")")

/-- The `fieldValidations` dispatch table of the strict copy.  Fields with no
validator (any-string fields; the ethnicity and performance-level collectors,
whose set insertion `processRows` performs) return no error. -/
def fieldCheck : String → Cell → Option String
  | "student_id", v =>
    if isDigitsOfLen 10 (jsToString v) then none
    else some ("Invalid student_id \"" ++ jsToString v ++ "\" (should be a 10-digit number)")
  | "district_id", v =>
    if isDigitsOfLen 7 (jsToString v) then none
    else some ("Invalid district_id \"" ++ jsToString v ++ "\" (should be a 7-digit number)")
  | "school_id", v =>
    if isDigitsOfLen 6 (jsToString v) then none
    else some ("Invalid school_id \"" ++ jsToString v ++ "\" (should be a 6-digit number)")
  | "current_grade_level", v =>
    let m := "Invalid current_grade_level \"" ++ jsToString v ++
      "\" (should be integer between 0 and 12)"
    (match jsParseInt (jsToString v) with
     | none => some m
     | some n => if n < 0 || 12 < n then some m else none)
  | "gender", v =>
    if v = some "Male" ∨ v = some "Female" then none
    else some ("Invalid gender \"" ++ jsToString v ++ "\" (should be \"Male\" or \"Female\")")
  | "ell", v => boolCheck "ell" v
  | "iep", v => boolCheck "iep" v
  | "gifted_flag", v => boolCheck "gifted_flag" v
  | "homeless_flag", v => boolCheck "homeless_flag" v
  | "disability", v => boolCheck "disability" v
  | "economic disadvantage", v => boolCheck "economic disadvantage" v
  | "ela_state_score_two_years_ago", v => scoreCheck "ela_state_score_two_years_ago" v
  | "ela_state_score_one_year_ago", v => scoreCheck "ela_state_score_one_year_ago" v
  | "ela_state_score_current_year", v => scoreCheck "ela_state_score_current_year" v
  | "math_state_score_two_years_ago", v => scoreCheck "math_state_score_two_years_ago" v
  | "math_state_score_one_year_ago", v => scoreCheck "math_state_score_one_year_ago" v
  | "math_state_score_current_year", v => scoreCheck "math_state_score_current_year" v
  | _, _ => none

/-- The three cardinality checks run after the row loop (strict copy: no
trailing period in the messages). -/
def aggErrors (st : AggState) : List String :=
  (if 10 < st.eth.length then
    ["The \x27ethnicity\x27 column has more than 10 unique values (" ++
      toString st.eth.length ++ ")"]
   else []) ++
  (if 6 < st.perfPrior.length then
    ["The \x27performance_level_prior_year\x27 column has more than 6 unique values (" ++
      toString st.perfPrior.length ++ ")"]
   else []) ++
  (if 6 < st.perfCurr.length then
    ["The \x27performance_level_current_year\x27 column has more than 6 unique values (" ++
      toString st.perfCurr.length ++ ")"]
   else [])

/-- Model of `validateData(rows, "school")` — the full strict school validation. -/
def validateData (rows : List (List Cell)) : SchoolResult :=
  if rows.length ≤ 1 then .emptyFile
  else
    let headers := headersOf rows
    let missing := missingHeaders expectedHeaders headers
    if missing.isEmpty then
      let st := processRows fieldCheck expectedHeaders headers (rows.drop 1)
      .report (st.errors ++ aggErrors st)
    else .headerError missing

end Strict

/-! ### The lenient school validator — `validateSchoolData` in
`src/validator/refactor/schoolValidator.js` -/

namespace Refactor

/-- Header list `expectedHeaders` of the refactor copy: last entry `"economic_disadvantage"`. -/
def expectedHeaders : List String :=
  ["student_id", "district_id", "district_name", "school_id", "school_name",
   "current_grade_level", "gender", "ethnicity", "ell", "iep", "gifted_flag",
   "homeless_flag", "ela_state_score_two_years_ago", "ela_state_score_one_year_ago",
   "ela_state_score_current_year", "math_state_score_two_years_ago",
   "math_state_score_one_year_ago", "math_state_score_current_year",
   "performance_level_prior_year", "performance_level_current_year", "disability",
   "economic_disadvantage"]

/-- Model of `String(value).trim().toLowerCase()` — the lenient normalisation. -/
def normalize (v : Cell) : String := jsToLower (jsTrim (jsToString v))

/-- Lenient boolean-flag validators: normalised value in
`['true', 'false', '1', '0', 'yes', 'no']`. -/
def boolCheck (field : String) (v : Cell) : Option String :=
  if ["true", "false", "1", "0", "yes", "no"].contains (normalize v) then none
  else some ("Invalid " ++ field ++ " \"" ++ jsToString v ++
    "\" (should be \"TRUE\", \"FALSE\", \"1\", \"0\", \"Yes\", or \"No\")")

/-- Refactor state-score validators other than the math current-year one:
bounds `intValue < 0 || intValue > 10000`, message still citing 650–800. -/
def scoreCheckWide (field : String) (v : Cell) : Option String :=
  let m := "Invalid " ++ field ++ " \"" ++ jsToString v ++
    "\" (should be integer between 650 and 800)"
  match jsParseInt (jsToString v) with
  | none => some m
  | some n => if n < 0 || 10000 < n then some m else none

/-- Validator of `math_state_score_current_year` in the refactor copy:
`intValue < 0 || intValue > 800`. -/
def scoreCheckMathCurr (v : Cell) : Option String :=
  let m := "Invalid math_state_score_current_year \"" ++ jsToString v ++
    "\" (should be integer between 650 and 800)"
  match jsParseInt (jsToString v) with
  | none => some m
  | some n => if n < 0 || 800 < n then some m else none

/-- The `fieldValidations` dispatch table of the refactor copy.  Note the
`current_grade_level` bound: the code tests `intValue < -10`, not `< 0`, while
its own comment and message say "integer between 0 and 12". -/
def fieldCheck : String → Cell → Option String
  | "student_id", v =>
    if isDigitsOfLen 10 (jsToString v) then none
    else some ("Invalid student_id \"" ++ jsToString v ++ "\" (should be a 10-digit number)")
  | "district_id", v =>
    if isDigitsOfLen 7 (jsToString v) then none
    else some ("Invalid district_id \"" ++ jsToString v ++ "\" (should be a 7-digit number)")
  | "school_id", v =>
    if isDigitsOfLen 6 (jsToString v) then none
    else some ("Invalid school_id \"" ++ jsToString v ++ "\" (should be a 6-digit number)")
  | "current_grade_level", v =>
    let m := "Invalid current_grade_level \"" ++ jsToString v ++
      "\" (should be integer between 0 and 12)"
    (match jsParseInt (jsToString v) with
     | none => some m
     | some n => if n < -10 || 12 < n then some m else none)
  | "gender", v =>
    if ["true", "false", "1", "0", "yes", "no", "male", "female"].contains (normalize v) then none
    else some ("Invalid gender \"" ++ jsToString v ++
      "\" (should be \"Male\", \"Female\", \"TRUE\", \"FALSE\", \"1\", or \"0\")")
  | "ell", v => boolCheck "ell" v
  | "iep", v => boolCheck "iep" v
  | "gifted_flag", v => boolCheck "gifted_flag" v
  | "homeless_flag", v => boolCheck "homeless_flag" v
  | "disability", v => boolCheck "disability" v
  | "economic_disadvantage", v => boolCheck "economic_disadvantage" v
  | "ela_state_score_two_years_ago", v => scoreCheckWide "ela_state_score_two_years_ago" v
  | "ela_state_score_one_year_ago", v => scoreCheckWide "ela_state_score_one_year_ago" v
  | "ela_state_score_current_year", v => scoreCheckWide "ela_state_score_current_year" v
  | "math_state_score_two_years_ago", v => scoreCheckWide "math_state_score_two_years_ago" v
  | "math_state_score_one_year_ago", v => scoreCheckWide "math_state_score_one_year_ago" v
  | "math_state_score_current_year", v => scoreCheckMathCurr v
  | _, _ => none

/-- Cardinality checks of the refactor copy (messages end with a period). -/
def aggErrors (st : AggState) : List String :=
  (if 10 < st.eth.length then
    ["The \x27ethnicity\x27 column has more than 10 unique values (" ++
      toString st.eth.length ++ ")."]
   else []) ++
  (if 6 < st.perfPrior.length then
    ["The \x27performance_level_prior_year\x27 column has more than 6 unique values (" ++
      toString st.perfPrior.length ++ ")."]
   else []) ++
  (if 6 < st.perfCurr.length then
    ["The \x27performance_level_current_year\x27 column has more than 6 unique values (" ++
      toString st.perfCurr.length ++ ")."]
   else [])

/-- Model of `validateSchoolData(rows)` — the full refactor school validation. -/
def validateSchoolData (rows : List (List Cell)) : SchoolResult :=
  if rows.length ≤ 1 then .emptyFile
  else
    let headers := headersOf rows
    let missing := missingHeaders expectedHeaders headers
    if missing.isEmpty then
      let st := processRows fieldCheck expectedHeaders headers (rows.drop 1)
      .report (st.errors ++ aggErrors st)
    else .headerError missing

end Refactor

/-! ### The provider (session) validator

The identical function appears as the provider branch of `validateData` in
`src/validator/data_validator.html` and as `validateProviderData` in
`src/validator/merge.html` (refactor copy).  Unlike the school validators it
can throw: when a data row fails to supply a `session_topic` cell the code runs
`rowData["session_topic"].toLowerCase()` on `undefined`, a `TypeError` that
aborts the entire validation run.  The `crash` constructor models that. -/

/-- Outcome of one provider-validator invocation. -/
inductive ProviderResult
  | emptyFile
  | headerError (missing : List String)
  | report (errors : List String)
  | crash
deriving DecidableEq, Repr

namespace Provider

/-- Expected headers of the session schema. -/
def expectedHeaders : List String :=
  ["student_id", "session_topic", "session_date", "session_duration", "tutor_id"]

/-- Test of the regex `/^\d{4}-\d{2}-\d{2}$/`. -/
def matchesDatePattern (s : String) : Bool :=
  match s.toList with
  | [a, b, c, d, e, f, g, i, j, k] =>
    isDigitChar a && isDigitChar b && isDigitChar c && isDigitChar d && e == '-' &&
    isDigitChar f && isDigitChar g && i == '-' && isDigitChar j && isDigitChar k
  | _ => false

/-- Structural split of a character list at a separator character. -/
def splitOnChar (c : Char) : List Char → List (List Char)
  | [] => [[]]
  | a :: t =>
    let r := splitOnChar c t
    if a = c then [] :: r
    else
      match r with
      | [] => [[a]]
      | h :: r2 => (a :: h) :: r2

/-- Components parsed from the date: split on the dash and `parseInt` each part.
The fallback value 0 is unreachable when the pattern has matched (each part is
then a nonempty digit string). -/
def dateParts (s : String) : Int × Int × Int :=
  let ps := (splitOnChar '-' s.toList).map String.mk
  ((jsParseInt (ps.getD 0 "")).getD 0,
   (jsParseInt (ps.getD 1 "")).getD 0,
   (jsParseInt (ps.getD 2 "")).getD 0)

/-- Errors produced by the session-date check of one row: the value must match
the pattern, and the parsed components must survive the `new Date` round-trip. -/
def sessionDateErrors (n : Nat) (v : Cell) : List String :=
  let s := jsToString v
  let m := "Row " ++ toString n ++ ": Invalid session_date \"" ++ s ++ "\""
  if !(matchesDatePattern s) then [m]
  else
    let p := dateParts s
    if jsDateRoundTrip p.1 p.2.1 p.2.2 then [] else [m]

/-- Errors of the session-topic check, reached only on a string value; the
lower-cased value must be "math" or "ela". -/
def topicErrors (n : Nat) (topic : String) : List String :=
  if ["math", "ela"].contains (jsToLower topic) then []
  else ["Row " ++ toString n ++ ": Invalid session_topic \"" ++ topic ++ "\""]

/-- Errors of the session-duration check: `parseFloat` then
`isNaN(duration) || duration <= 0`. -/
def durationErrors (n : Nat) (v : Cell) : List String :=
  let m := "Row " ++ toString n ++ ": Invalid session_duration \"" ++ jsToString v ++ "\""
  match jsParseFloat (jsToString v) with
  | none => [m]
  | some x => if x.1 ≤ 0 then [m] else []

/-- Errors of the tutor-id check: the value must be a string whose trim is
nonempty. -/
def tutorErrors (n : Nat) (v : Cell) : List String :=
  match v with
  | none => ["Row " ++ toString n ++ ": Invalid tutor_id \"undefined\""]
  | some t =>
    if jsTrim t = "" then ["Row " ++ toString n ++ ": Invalid tutor_id \"" ++ t ++ "\""] else []

/-- Validation of one nonempty provider row, checks in source order.  The
`Except.error` branch is the `TypeError` thrown by
`rowData["session_topic"].toLowerCase()` when that cell is `undefined`. -/
def rowCheck (headers : List String) (n : Nat) (row : List Cell) : Except Unit (List String) :=
  let sid := jsToString (rowValue headers row "student_id")
  let e1 := if isDigitRun sid then []
            else ["Row " ++ toString n ++ ": Invalid student_id \"" ++ sid ++ "\""]
  match rowValue headers row "session_topic" with
  | none => Except.error ()
  | some topic =>
    Except.ok (e1 ++ topicErrors n topic ++
      sessionDateErrors n (rowValue headers row "session_date") ++
      durationErrors n (rowValue headers row "session_duration") ++
      tutorErrors n (rowValue headers row "tutor_id"))

/-- Model of `validateProviderData(rows)` (the provider branch of
`validateData`): empty-file check, header check, then the row loop; a thrown
`TypeError` aborts the loop and the whole call. -/
def validateProviderData (rows : List (List Cell)) : ProviderResult :=
  if rows.length ≤ 1 then .emptyFile
  else
    let headers := headersOf rows
    let missing := missingHeaders expectedHeaders headers
    if missing.isEmpty then
      match (rows.drop 1).enum.foldl
        (fun acc p =>
          match acc with
          | Except.error e => Except.error e
          | Except.ok es =>
            if p.2.all isEmptyCell then Except.ok es
            else
              match rowCheck headers (p.1 + 2) p.2 with
              | Except.error e => Except.error e
              | Except.ok re => Except.ok (es ++ re))
        (Except.ok []) with
      | Except.error _ => .crash
      | Except.ok es => .report es
    else .headerError missing

end Provider

/-! ### The merge utility — `parseAndMerge` in `src/validator/merge.html`

Papa.parse with a header row yields one record object per CSV data row, its keys
in header order with string values; an object is an ordered association list
with unique keys.  The join builds `schoolLookup[row.student_id] = row` over the
school (right) table — later rows overwrite earlier ones — then maps every
provider (left) row to the spread `{...providerRow, ...match}`, and takes the
output field list from `Object.keys(merged[0] || {})`. -/

namespace Merge

/-- A record object produced by Papa.parse: keys in insertion order. -/
abbrev Obj := List (String × String)

/-- Key list of an object, in insertion order. -/
def keys (o : Obj) : List String := o.map (fun p => p.1)

/-- Property read `o[k]`: value at the first matching key, or `undefined`. -/
def objGet (o : Obj) (k : String) : Option String :=
  (o.find? (fun p => p.1 == k)).map (fun p => p.2)

/-- Model of the object spread `{...a, ...b}`: the keys of `a` in order, each
taking the value from `b` when `b` has the key, followed by the keys of `b`
absent from `a`, in the order of `b`. -/
def spreadMerge (a b : Obj) : Obj :=
  a.map (fun p => (p.1, (objGet b p.1).getD p.2)) ++
    b.filter (fun p => !((keys a).contains p.1))

/-- Property write `l[k] = v` on an object held as an association list:
overwrite an existing key in place, else append. -/
def setKey (l : List (String × Obj)) (k : String) (v : Obj) : List (String × Obj) :=
  if l.any (fun p => p.1 == k) then
    l.map (fun p => if p.1 == k then (k, v) else p)
  else l ++ [(k, v)]

/-- Join key of a row: `row.student_id` as the property name it becomes
(an absent column coerces to the key "undefined"). -/
def rowKey (r : Obj) : String := jsToString (objGet r "student_id")

/-- Model of `schools.forEach(row => schoolLookup[row.student_id] = row)`. -/
def buildLookup (schools : List Obj) : List (String × Obj) :=
  schools.foldl (fun acc row => setKey acc (rowKey row) row) []

/-- Model of `schoolLookup[key] || {}`. -/
def lookupGet (lk : List (String × Obj)) (k : String) : Obj :=
  ((lk.find? (fun p => p.1 == k)).map (fun p => p.2)).getD []

/-- Model of the `merged` array: one spread per provider row. -/
def mergeRows (providers schools : List Obj) : List Obj :=
  let lk := buildLookup schools
  providers.map (fun p => spreadMerge p (lookupGet lk (rowKey p)))

/-- Model of `Object.keys(merged[0] || {})` — the field list handed to
`Papa.unparse` as the header of the output CSV. -/
def mergedFields (providers schools : List Obj) : List String :=
  (((mergeRows providers schools).head?).map keys).getD []

end Merge

/-! ### The summary generator — `generateOutput` in `src/unnamed/part_002`
(and the identical percent computation of `generateSummary` in
`src/validator/refactor/summaryGenerator.js`) -/

namespace Summary

/-- Exact-rational model of `x.toFixed(2)` on the nonnegative ratios produced
here: round to two decimals, ties upward (the larger candidate, per the
ECMAScript rounding rule).  The JS double computation agrees on the small
integer ratios these tables produce. -/
def toFixed2 (x : ℚ) : ℚ := (Rat.floor (x * 100 + 1 / 2) : ℚ) / 100

/-- Count over the data rows of one column of the cells that are neither null,
undefined, nor empty after trimming. -/
def nonEmptyCountCol (dataRows : List (List Cell)) (i : Nat) : Nat :=
  dataRows.countP (fun row =>
    match row.getD i none with
    | none => false
    | some s => jsTrim s != "")

/-- Percentage of one column: `(nonEmptyCount / totalRows) * 100` then
`toFixed(2)`.  With zero data rows the JS division yields `NaN` (modelled
`none`) and `toFixed` renders it as the string "NaN". -/
def percentComplete (nonEmpty total : Nat) : Option ℚ :=
  if total = 0 then none
  else some (toFixed2 ((nonEmpty : ℚ) / (total : ℚ) * 100))

/-- Model of the record built by `generateOutput(rows, headers, type)`:
`total_rows` and, per header field, the completion percentage. -/
def generateOutput (rows : List (List Cell)) (headers : List String) :
    Nat × List (String × Option ℚ) :=
  let dataRows := rows.drop 1
  let total := dataRows.length
  (total,
   headers.enum.map (fun p => (p.2, percentComplete (nonEmptyCountCol dataRows p.1) total)))

end Summary

/-! ### Compositional views of the row loop

The theorems below relate the monolithic fold of `processRows` to independent
descriptions of its three outputs: the row errors in emission order, and the
observed distinct values of the three tracked columns. -/

/-- Errors of one row paired with the index of the offending field in the
schema declaration order. -/
def rowFieldErrors (check : String → Cell → Option String) (expected headers : List String)
    (row : List Cell) : List (Nat × String) :=
  expected.enum.filterMap
    (fun p => (check p.2 (rowValue headers row p.2)).map (fun m => (p.1, m)))

/-- Row errors of the row loop started at data index `k`, each tagged with its
displayed row number (`index + 2`) and schema field index. -/
def taggedFrom (check : String → Cell → Option String) (expected headers : List String)
    (k : Nat) (dataRows : List (List Cell)) : List (Nat × Nat × String) :=
  (List.enumFrom k dataRows).flatMap
    (fun p =>
      if p.2.all isEmptyCell then []
      else (rowFieldErrors check expected headers p.2).map (fun q => (p.1 + 2, q.1, q.2)))

/-- Row errors of the whole row loop, tagged with row number and field index. -/
def taggedErrors (check : String → Cell → Option String) (expected headers : List String)
    (dataRows : List (List Cell)) : List (Nat × Nat × String) :=
  taggedFrom check expected headers 0 dataRows

/-- Rendering of a tagged error as the pushed string. -/
def renderTagged (t : Nat × Nat × String) : String :=
  "Row " ++ toString t.1 ++ ": " ++ t.2.2

/-- Observed values of a column: the cell a field maps to, for every data row
that the empty-row skip does not drop. -/
def observedCol (headers : List String) (dataRows : List (List Cell)) (field : String) :
    List Cell :=
  (dataRows.filter (fun r => !(r.all isEmptyCell))).map (fun r => rowValue headers r field)

/-- Number of distinct observed values of a column. -/
def distinctCount (headers : List String) (dataRows : List (List Cell)) (field : String) : Nat :=
  (observedCol headers dataRows field).dedup.length

/-- Strict (`<`) error-emission order: later row, or same row and later schema
field. -/
def tagLt (x y : Nat × Nat × String) : Prop :=
  x.1 < y.1 ∨ (x.1 = y.1 ∧ x.2.1 < y.2.1)

/-! ### Lemmas: the accumulator components of the row loop -/

theorem mem_jsSetInsert (s : List Cell) (v a : Cell) :
    a ∈ jsSetInsert s v ↔ a ∈ s ∨ a = v := by
  unfold jsSetInsert
  split_ifs with h
  · constructor
    · exact fun ha => Or.inl ha
    · rintro (ha | rfl)
      · exact ha
      · exact h
  · simp

theorem nodup_jsSetInsert (s : List Cell) (v : Cell) (hs : s.Nodup) :
    (jsSetInsert s v).Nodup := by
  unfold jsSetInsert
  split_ifs with h
  · exact hs
  · simpa [List.nodup_append] using ⟨hs, h⟩

theorem mem_foldl_jsSetInsert (l : List Cell) :
    ∀ (s : List Cell) (a : Cell), a ∈ l.foldl jsSetInsert s ↔ a ∈ s ∨ a ∈ l := by
  induction l with
  | nil => simp
  | cons v t ih =>
    intro s a
    rw [List.foldl_cons, ih, mem_jsSetInsert]
    simp only [List.mem_cons]
    tauto

theorem nodup_foldl_jsSetInsert (l : List Cell) :
    ∀ s : List Cell, s.Nodup → (l.foldl jsSetInsert s).Nodup := by
  induction l with
  | nil => exact fun s hs => hs
  | cons v t ih => exact fun s hs => ih _ (nodup_jsSetInsert s v hs)

/-- The length of the JS set built by the row loop is the number of distinct
inserted values. -/
theorem length_foldl_jsSetInsert (l : List Cell) :
    (l.foldl jsSetInsert []).length = l.dedup.length := by
  apply List.Perm.length_eq
  rw [List.perm_ext_iff_of_nodup (nodup_foldl_jsSetInsert l [] List.nodup_nil) l.nodup_dedup]
  intro a
  rw [mem_foldl_jsSetInsert, List.mem_dedup]
  simp

theorem applyField_errors (check : String → Cell → Option String) (n : Nat) (st : AggState)
    (f : String) (v : Cell) :
    (applyField check n st f v).errors =
      st.errors ++ ((check f v).map (fun m => "Row " ++ toString n ++ ": " ++ m)).toList := by
  unfold applyField
  split_ifs <;> cases check f v <;> simp

theorem applyField_eth (check : String → Cell → Option String) (n : Nat) (st : AggState)
    (f : String) (v : Cell) :
    (applyField check n st f v).eth =
      if f = "ethnicity" then jsSetInsert st.eth v else st.eth := by
  unfold applyField
  split_ifs <;> cases check f v <;> simp_all

theorem applyField_perfPrior (check : String → Cell → Option String) (n : Nat) (st : AggState)
    (f : String) (v : Cell) :
    (applyField check n st f v).perfPrior =
      if f = "performance_level_prior_year" then jsSetInsert st.perfPrior v else st.perfPrior := by
  unfold applyField
  split_ifs <;> cases check f v <;> simp_all

theorem applyField_perfCurr (check : String → Cell → Option String) (n : Nat) (st : AggState)
    (f : String) (v : Cell) :
    (applyField check n st f v).perfCurr =
      if f = "performance_level_current_year" then jsSetInsert st.perfCurr v else st.perfCurr := by
  unfold applyField
  split_ifs <;> cases check f v <;> simp_all

/-- Error output of the per-field loop over one row: the starting errors
followed by the failures of the expected fields in declaration order. -/
theorem foldl_applyField_errors (check : String → Cell → Option String) (expected : List String)
    (val : String → Cell) (n : Nat) :
    ∀ st : AggState,
      (expected.foldl (fun st f => applyField check n st f (val f)) st).errors =
        st.errors ++
          expected.filterMap (fun f => (check f (val f)).map (fun m => "Row " ++ toString n ++ ": " ++ m)) := by
  induction expected with
  | nil => simp
  | cons f fs ih =>
    intro st
    rw [List.foldl_cons, ih, applyField_errors, List.filterMap_cons]
    cases check f (val f) <;> simp

/-- Ethnicity-set output of the per-field loop over one row. -/
theorem foldl_applyField_eth (check : String → Cell → Option String) (expected : List String)
    (val : String → Cell) (n : Nat) :
    ∀ st : AggState,
      (expected.foldl (fun st f => applyField check n st f (val f)) st).eth =
        ((expected.filter (fun f => f = "ethnicity")).map val).foldl jsSetInsert st.eth := by
  induction expected with
  | nil => simp
  | cons f fs ih =>
    intro st
    rw [List.foldl_cons, ih, List.filter_cons]
    by_cases h : f = "ethnicity" <;> simp [h, applyField_eth]

/-- Prior-performance-set output of the per-field loop over one row. -/
theorem foldl_applyField_perfPrior (check : String → Cell → Option String) (expected : List String)
    (val : String → Cell) (n : Nat) :
    ∀ st : AggState,
      (expected.foldl (fun st f => applyField check n st f (val f)) st).perfPrior =
        ((expected.filter (fun f => f = "performance_level_prior_year")).map val).foldl
          jsSetInsert st.perfPrior := by
  induction expected with
  | nil => simp
  | cons f fs ih =>
    intro st
    rw [List.foldl_cons, ih, List.filter_cons]
    by_cases h : f = "performance_level_prior_year" <;> simp [h, applyField_perfPrior]

/-- Current-performance-set output of the per-field loop over one row. -/
theorem foldl_applyField_perfCurr (check : String → Cell → Option String) (expected : List String)
    (val : String → Cell) (n : Nat) :
    ∀ st : AggState,
      (expected.foldl (fun st f => applyField check n st f (val f)) st).perfCurr =
        ((expected.filter (fun f => f = "performance_level_current_year")).map val).foldl
          jsSetInsert st.perfCurr := by
  induction expected with
  | nil => simp
  | cons f fs ih =>
    intro st
    rw [List.foldl_cons, ih, List.filter_cons]
    by_cases h : f = "performance_level_current_year" <;> simp [h, applyField_perfCurr]

theorem filterMap_enumFrom_snd {α β : Type} (l : List α) (F : α → Option β) :
    ∀ k : Nat, (List.enumFrom k l).filterMap (fun p => F p.2) = l.filterMap F := by
  induction l with
  | nil => intro k; rfl
  | cons a t ih =>
    intro k
    rw [show List.enumFrom k (a :: t) = (k, a) :: List.enumFrom (k + 1) t from rfl,
      List.filterMap_cons, List.filterMap_cons]
    cases F a <;> simp [ih]

/-- Rendering the field-tagged errors of a row drops the tags and leaves the
message list the inner fold emits. -/
theorem rowFieldErrors_map_render (check : String → Cell → Option String)
    (expected headers : List String) (row : List Cell) (n : Nat) :
    (rowFieldErrors check expected headers row).map
        (fun q => "Row " ++ toString n ++ ": " ++ q.2) =
      expected.filterMap
        (fun f => (check f (rowValue headers row f)).map (fun m => "Row " ++ toString n ++ ": " ++ m)) := by
  unfold rowFieldErrors
  rw [List.map_filterMap]
  rw [show List.enum expected = List.enumFrom 0 expected from rfl]
  rw [← filterMap_enumFrom_snd expected
    (fun f => (check f (rowValue headers row f)).map (fun m => "Row " ++ toString n ++ ": " ++ m)) 0]
  congr 1
  funext p
  cases check p.2 (rowValue headers row p.2) <;> simp

/-- Error output of the whole row loop started at any index: the tagged row
errors in emission order, rendered. -/
theorem foldl_rowStep_errors (check : String → Cell → Option String)
    (expected headers : List String) (dataRows : List (List Cell)) :
    ∀ (k : Nat) (st : AggState),
      ((List.enumFrom k dataRows).foldl (rowStep check expected headers) st).errors =
        st.errors ++ (taggedFrom check expected headers k dataRows).map renderTagged := by
  induction dataRows with
  | nil => intro k st; simp [taggedFrom]
  | cons r t ih =>
    intro k st
    rw [show List.enumFrom k (r :: t) = (k, r) :: List.enumFrom (k + 1) t from rfl,
      List.foldl_cons,
      show taggedFrom check expected headers k (r :: t) =
        (if r.all isEmptyCell then []
         else (rowFieldErrors check expected headers r).map (fun q => (k + 2, q.1, q.2))) ++
          taggedFrom check expected headers (k + 1) t from rfl]
    by_cases h : r.all isEmptyCell
    · simp only [rowStep, h, if_pos, ih]
      simp [h]
    · simp only [rowStep, h, if_neg, Bool.false_eq_true, ite_false, ih]
      rw [foldl_applyField_errors check expected (fun f => rowValue headers r f) (k + 2) st]
      simp only [h, Bool.false_eq_true, ite_false, List.map_append, List.append_assoc]
      rw [List.map_map]
      rw [show (renderTagged ∘ fun q : Nat × String => (k + 2, q.1, q.2)) =
        (fun q : Nat × String => "Row " ++ toString (k + 2) ++ ": " ++ q.2) from rfl]
      rw [rowFieldErrors_map_render]

/-- Ethnicity-set output of the whole row loop: the inserts of the observed
column values of every non-skipped row, provided the schema lists the
ethnicity field exactly once. -/
theorem foldl_rowStep_eth (check : String → Cell → Option String)
    (expected headers : List String) (dataRows : List (List Cell))
    (hexp : expected.filter (fun f => f = "ethnicity") = ["ethnicity"]) :
    ∀ (k : Nat) (st : AggState),
      ((List.enumFrom k dataRows).foldl (rowStep check expected headers) st).eth =
        (observedCol headers dataRows "ethnicity").foldl jsSetInsert st.eth := by
  induction dataRows with
  | nil => intro k st; simp [observedCol]
  | cons r t ih =>
    intro k st
    rw [show List.enumFrom k (r :: t) = (k, r) :: List.enumFrom (k + 1) t from rfl,
      List.foldl_cons]
    unfold observedCol
    rw [List.filter_cons]
    by_cases h : r.all isEmptyCell
    · simp only [rowStep, h, if_pos]
      simpa [observedCol, h] using ih (k + 1) st
    · simp only [rowStep, h, Bool.false_eq_true, ite_false]
      have hr := foldl_applyField_eth check expected (fun f => rowValue headers r f) (k + 2) st
      simp only [h, Bool.not_false, if_pos]
      rw [List.map_cons, List.foldl_cons]
      have := ih (k + 1)
        (expected.foldl (fun st f => applyField check (k + 2) st f (rowValue headers r f)) st)
      unfold observedCol at this
      rw [this, hr, hexp]
      simp

/-- Prior-performance-set output of the whole row loop. -/
theorem foldl_rowStep_perfPrior (check : String → Cell → Option String)
    (expected headers : List String) (dataRows : List (List Cell))
    (hexp : expected.filter (fun f => f = "performance_level_prior_year") =
      ["performance_level_prior_year"]) :
    ∀ (k : Nat) (st : AggState),
      ((List.enumFrom k dataRows).foldl (rowStep check expected headers) st).perfPrior =
        (observedCol headers dataRows "performance_level_prior_year").foldl
          jsSetInsert st.perfPrior := by
  induction dataRows with
  | nil => intro k st; simp [observedCol]
  | cons r t ih =>
    intro k st
    rw [show List.enumFrom k (r :: t) = (k, r) :: List.enumFrom (k + 1) t from rfl,
      List.foldl_cons]
    unfold observedCol
    rw [List.filter_cons]
    by_cases h : r.all isEmptyCell
    · simp only [rowStep, h, if_pos]
      simpa [observedCol, h] using ih (k + 1) st
    · simp only [rowStep, h, Bool.false_eq_true, ite_false]
      have hr := foldl_applyField_perfPrior check expected (fun f => rowValue headers r f) (k + 2) st
      simp only [h, Bool.not_false, if_pos]
      rw [List.map_cons, List.foldl_cons]
      have := ih (k + 1)
        (expected.foldl (fun st f => applyField check (k + 2) st f (rowValue headers r f)) st)
      unfold observedCol at this
      rw [this, hr, hexp]
      simp

/-- Current-performance-set output of the whole row loop. -/
theorem foldl_rowStep_perfCurr (check : String → Cell → Option String)
    (expected headers : List String) (dataRows : List (List Cell))
    (hexp : expected.filter (fun f => f = "performance_level_current_year") =
      ["performance_level_current_year"]) :
    ∀ (k : Nat) (st : AggState),
      ((List.enumFrom k dataRows).foldl (rowStep check expected headers) st).perfCurr =
        (observedCol headers dataRows "performance_level_current_year").foldl
          jsSetInsert st.perfCurr := by
  induction dataRows with
  | nil => intro k st; simp [observedCol]
  | cons r t ih =>
    intro k st
    rw [show List.enumFrom k (r :: t) = (k, r) :: List.enumFrom (k + 1) t from rfl,
      List.foldl_cons]
    unfold observedCol
    rw [List.filter_cons]
    by_cases h : r.all isEmptyCell
    · simp only [rowStep, h, if_pos]
      simpa [observedCol, h] using ih (k + 1) st
    · simp only [rowStep, h, Bool.false_eq_true, ite_false]
      have hr := foldl_applyField_perfCurr check expected (fun f => rowValue headers r f) (k + 2) st
      simp only [h, Bool.not_false, if_pos]
      rw [List.map_cons, List.foldl_cons]
      have := ih (k + 1)
        (expected.foldl (fun st f => applyField check (k + 2) st f (rowValue headers r f)) st)
      unfold observedCol at this
      rw [this, hr, hexp]
      simp

/-- The error component of `processRows` is the rendered tagged error list. -/
theorem processRows_errors (check : String → Cell → Option String)
    (expected headers : List String) (dataRows : List (List Cell)) :
    (processRows check expected headers dataRows).errors =
      (taggedErrors check expected headers dataRows).map renderTagged := by
  unfold processRows taggedErrors
  rw [show dataRows.enum = List.enumFrom 0 dataRows from rfl,
    foldl_rowStep_errors check expected headers dataRows 0 ⟨[], [], [], []⟩]
  rfl

/-- Size of the ethnicity set after the row loop: the number of distinct
observed ethnicity values. -/
theorem processRows_eth_length (check : String → Cell → Option String)
    (expected headers : List String) (dataRows : List (List Cell))
    (hexp : expected.filter (fun f => f = "ethnicity") = ["ethnicity"]) :
    (processRows check expected headers dataRows).eth.length =
      distinctCount headers dataRows "ethnicity" := by
  unfold processRows distinctCount
  rw [show dataRows.enum = List.enumFrom 0 dataRows from rfl,
    foldl_rowStep_eth check expected headers dataRows hexp 0 ⟨[], [], [], []⟩]
  exact length_foldl_jsSetInsert _

/-- Size of the prior-performance set after the row loop. -/
theorem processRows_perfPrior_length (check : String → Cell → Option String)
    (expected headers : List String) (dataRows : List (List Cell))
    (hexp : expected.filter (fun f => f = "performance_level_prior_year") =
      ["performance_level_prior_year"]) :
    (processRows check expected headers dataRows).perfPrior.length =
      distinctCount headers dataRows "performance_level_prior_year" := by
  unfold processRows distinctCount
  rw [show dataRows.enum = List.enumFrom 0 dataRows from rfl,
    foldl_rowStep_perfPrior check expected headers dataRows hexp 0 ⟨[], [], [], []⟩]
  exact length_foldl_jsSetInsert _

/-- Size of the current-performance set after the row loop. -/
theorem processRows_perfCurr_length (check : String → Cell → Option String)
    (expected headers : List String) (dataRows : List (List Cell))
    (hexp : expected.filter (fun f => f = "performance_level_current_year") =
      ["performance_level_current_year"]) :
    (processRows check expected headers dataRows).perfCurr.length =
      distinctCount headers dataRows "performance_level_current_year" := by
  unfold processRows distinctCount
  rw [show dataRows.enum = List.enumFrom 0 dataRows from rfl,
    foldl_rowStep_perfCurr check expected headers dataRows hexp 0 ⟨[], [], [], []⟩]
  exact length_foldl_jsSetInsert _

/-! ### Lemmas: emission order of the row errors -/

theorem fst_ge_of_mem_filterMap_enumFrom {α β : Type} (l : List α)
    (F : Nat → α → Option β) :
    ∀ (k : Nat) (y : Nat × β),
      y ∈ (List.enumFrom k l).filterMap (fun p => (F p.1 p.2).map (fun b => (p.1, b))) →
      k ≤ y.1 := by
  induction l with
  | nil => intro k y hy; simp at hy
  | cons a t ih =>
    intro k y hy
    rw [show List.enumFrom k (a :: t) = (k, a) :: List.enumFrom (k + 1) t from rfl,
      List.filterMap_cons] at hy
    rcases hF : F k a with _ | b
    · rw [hF] at hy
      exact Nat.le_of_succ_le (ih (k + 1) y hy)
    · rw [hF] at hy
      rcases List.mem_cons.mp hy with rfl | hy2
      · exact Nat.le_refl k
      · exact Nat.le_of_succ_le (ih (k + 1) y hy2)

theorem pairwise_fst_lt_filterMap_enumFrom {α β : Type} (l : List α)
    (F : Nat → α → Option β) :
    ∀ k : Nat,
      ((List.enumFrom k l).filterMap (fun p => (F p.1 p.2).map (fun b => (p.1, b)))).Pairwise
        (fun x y => x.1 < y.1) := by
  induction l with
  | nil => intro k; simp
  | cons a t ih =>
    intro k
    rw [show List.enumFrom k (a :: t) = (k, a) :: List.enumFrom (k + 1) t from rfl,
      List.filterMap_cons]
    rcases hF : F k a with _ | b
    · exact ih (k + 1)
    · refine List.Pairwise.cons ?_ (ih (k + 1))
      intro y hy
      exact Nat.lt_of_succ_le (fst_ge_of_mem_filterMap_enumFrom t F (k + 1) y hy)

/-- Within one row, the field-tagged errors carry strictly increasing schema
field indices. -/
theorem rowFieldErrors_pairwise (check : String → Cell → Option String)
    (expected headers : List String) (row : List Cell) :
    (rowFieldErrors check expected headers row).Pairwise (fun x y => x.1 < y.1) := by
  unfold rowFieldErrors
  rw [show List.enum expected = List.enumFrom 0 expected from rfl]
  exact pairwise_fst_lt_filterMap_enumFrom expected
    (fun _ f => check f (rowValue headers row f)) 0

theorem rowNum_ge_of_mem_taggedFrom (check : String → Cell → Option String)
    (expected headers : List String) (dataRows : List (List Cell)) :
    ∀ (k : Nat) (y : Nat × Nat × String),
      y ∈ taggedFrom check expected headers k dataRows → k + 2 ≤ y.1 := by
  induction dataRows with
  | nil => intro k y hy; simp [taggedFrom] at hy
  | cons r t ih =>
    intro k y hy
    rw [show taggedFrom check expected headers k (r :: t) =
      (if r.all isEmptyCell then []
       else (rowFieldErrors check expected headers r).map (fun q => (k + 2, q.1, q.2))) ++
        taggedFrom check expected headers (k + 1) t from rfl] at hy
    rcases List.mem_append.mp hy with hy1 | hy2
    · by_cases h : r.all isEmptyCell
      · simp [h] at hy1
      · simp only [h, Bool.false_eq_true, ite_false] at hy1
        rcases List.mem_map.mp hy1 with ⟨q, _, rfl⟩
        exact Nat.le_refl _
    · exact Nat.le_of_succ_le (Nat.succ_le_of_lt (Nat.lt_of_lt_of_le
        (Nat.lt_succ_self (k + 2)) (ih (k + 1) y hy2)))

/-- The tagged row errors are emitted in strictly increasing
(row number, field index) order. -/
theorem taggedFrom_pairwise (check : String → Cell → Option String)
    (expected headers : List String) (dataRows : List (List Cell)) :
    ∀ k : Nat, (taggedFrom check expected headers k dataRows).Pairwise tagLt := by
  induction dataRows with
  | nil => intro k; simp [taggedFrom]
  | cons r t ih =>
    intro k
    rw [show taggedFrom check expected headers k (r :: t) =
      (if r.all isEmptyCell then []
       else (rowFieldErrors check expected headers r).map (fun q => (k + 2, q.1, q.2))) ++
        taggedFrom check expected headers (k + 1) t from rfl]
    rw [List.pairwise_append]
    refine ⟨?_, ih (k + 1), ?_⟩
    · by_cases h : r.all isEmptyCell
      · simp [h]
      · simp only [h, Bool.false_eq_true, ite_false]
        rw [List.pairwise_map]
        exact (rowFieldErrors_pairwise check expected headers r).imp
          (fun hab => Or.inr ⟨rfl, hab⟩)
    · intro x hx y hy
      by_cases h : r.all isEmptyCell
      · simp [h] at hx
      · simp only [h, Bool.false_eq_true, ite_false] at hx
        rcases List.mem_map.mp hx with ⟨q, _, rfl⟩
        exact Or.inl (Nat.lt_of_lt_of_le (Nat.lt_succ_self (k + 2))
          (rowNum_ge_of_mem_taggedFrom check expected headers t (k + 1) y hy))

/-- Ordering of the full tagged error list. -/
theorem taggedErrors_pairwise (check : String → Cell → Option String)
    (expected headers : List String) (dataRows : List (List Cell)) :
    (taggedErrors check expected headers dataRows).Pairwise tagLt :=
  taggedFrom_pairwise check expected headers dataRows 0

/-! ### Lemmas: the merge utility -/

namespace Merge

theorem objGet_cons (k v : String) (o : Obj) (f : String) :
    objGet ((k, v) :: o) f = if k = f then some v else objGet o f := by
  unfold objGet
  rw [List.find?_cons]
  by_cases h : k = f
  · subst h; simp
  · have hb : (k == f) = false := beq_eq_false_iff_ne.mpr h
    simp [hb, h]

/-- The mapped half of the spread keeps the keys of `a` and overlays the values
found in `b`. -/
theorem objGet_map_overlay (a b : Obj) (f : String) :
    objGet (a.map (fun p => (p.1, (objGet b p.1).getD p.2))) f =
      (objGet a f).map (fun v => (objGet b f).getD v) := by
  induction a with
  | nil => simp [objGet]
  | cons p t ih =>
    rw [List.map_cons]
    rcases p with ⟨k, v⟩
    rw [objGet_cons, objGet_cons]
    by_cases h : k = f
    · subst h; simp
    · simp [h, ih]

theorem isSome_objGet_iff_contains (a : Obj) (f : String) :
    (objGet a f).isSome = (keys a).contains f := by
  induction a with
  | nil => simp [objGet, keys]
  | cons p t ih =>
    rcases p with ⟨k, v⟩
    rw [objGet_cons]
    by_cases h : k = f
    · subst h; simp [keys]
    · simp [keys, h, ih, Ne.symm h]

/-- Entries whose key is `f` all survive a filter that does not exclude key `f`:
the first found value is unchanged. -/
theorem objGet_filter_keep (b : Obj) (pred : String × String → Bool) (f : String)
    (h : ∀ q : String × String, q.1 = f → pred q = true) :
    objGet (b.filter pred) f = objGet b f := by
  induction b with
  | nil => rfl
  | cons p t ih =>
    rcases p with ⟨k, v⟩
    rw [List.filter_cons]
    by_cases hk : k = f
    · subst hk
      rw [h (k, v) rfl]
      simp only [ite_true, if_pos]
      rw [objGet_cons, objGet_cons]
      simp
    · rcases hp : pred (k, v) with _ | _
      · simp only [Bool.false_eq_true, ite_false]
        rw [ih, objGet_cons]
        simp [hk]
      · simp only [ite_true, if_pos]
        rw [objGet_cons, objGet_cons]
        simp [hk, ih]

/-- A filter that excludes every entry of key `f` makes the key unreadable. -/
theorem objGet_filter_drop (b : Obj) (pred : String × String → Bool) (f : String)
    (h : ∀ q : String × String, q.1 = f → pred q = false) :
    objGet (b.filter pred) f = none := by
  induction b with
  | nil => rfl
  | cons p t ih =>
    rcases p with ⟨k, v⟩
    rw [List.filter_cons]
    by_cases hk : k = f
    · subst hk
      rw [h (k, v) rfl]
      simpa using ih
    · rcases hp : pred (k, v) with _ | _
      · simpa using ih
      · simp only [ite_true, if_pos]
        rw [objGet_cons]
        simp [hk, ih]

theorem objGet_append (x y : Obj) (f : String) :
    objGet (x ++ y) f = (objGet x f).or (objGet y f) := by
  induction x with
  | nil => simp [objGet]
  | cons p t ih =>
    rcases p with ⟨k, v⟩
    rw [List.cons_append, objGet_cons, objGet_cons]
    by_cases h : k = f <;> simp [h, ih]

/-- Field values of the spread `{...a, ...b}`: the right-hand object wins on
collision, the left-hand value is kept otherwise. -/
theorem objGet_spreadMerge (a b : Obj) (f : String) :
    objGet (spreadMerge a b) f = (objGet b f).or (objGet a f) := by
  unfold spreadMerge
  rw [objGet_append, objGet_map_overlay]
  rcases ha : objGet a f with _ | v
  · simp only [Option.map_none', Option.none_or]
    have hc : (keys a).contains f = false := by
      rw [← isSome_objGet_iff_contains, ha]; rfl
    rw [objGet_filter_keep b _ f ?_]
    · simp
    · intro q hq
      rw [hq, hc]
      rfl
  · have hc : (keys a).contains f = true := by
      rw [← isSome_objGet_iff_contains, ha]; rfl
    rw [objGet_filter_drop b _ f ?_]
    · rcases objGet b f with _ | w <;> simp
    · intro q hq
      rw [hq, hc]
      rfl

/-- A spread with an empty right object is the left object. -/
theorem spreadMerge_nil (a : Obj) : spreadMerge a [] = a := by
  unfold spreadMerge
  simp [objGet]

/-- Key list of the spread: the left keys in order, then the right-only keys
in order. -/
theorem keys_spreadMerge (a b : Obj) :
    keys (spreadMerge a b) =
      keys a ++ (keys b).filter (fun k => !((keys a).contains k)) := by
  unfold spreadMerge keys
  rw [List.map_append, List.map_map]
  congr 1
  induction b with
  | nil => rfl
  | cons p t ih =>
    rw [List.map_cons, List.filter_cons, List.filter_cons]
    split_ifs with hp
    · rw [List.map_cons]
      exact congrArg (List.cons p.1) ih
    · exact ih

end Merge

namespace Merge

theorem find?_map_overwrite_ne (l : List (String × Obj)) (k : String) (v : Obj) (f : String)
    (h : f ≠ k) :
    (l.map (fun p => if p.1 == k then (k, v) else p)).find? (fun p => p.1 == f) =
      l.find? (fun p => p.1 == f) := by
  induction l with
  | nil => rfl
  | cons p t ih =>
    rw [List.map_cons, List.find?_cons, List.find?_cons]
    by_cases hk : p.1 = k
    · have hb : (p.1 == k) = true := beq_iff_eq.mpr hk
      have h1 : (k == f) = false := beq_eq_false_iff_ne.mpr (Ne.symm h)
      have h2 : (p.1 == f) = false := beq_eq_false_iff_ne.mpr (by rw [hk]; exact Ne.symm h)
      rw [hb, if_pos rfl, h1, h2, ih]
    · have hb : (p.1 == k) = false := beq_eq_false_iff_ne.mpr hk
      rw [hb]
      simp only [Bool.false_eq_true, ite_false]
      cases hf : p.1 == f
      · rw [ih]
      · rfl

theorem find?_map_overwrite_eq (l : List (String × Obj)) (k : String) (v : Obj) :
    (l.map (fun p => if p.1 == k then (k, v) else p)).find? (fun p => p.1 == k) =
      if l.any (fun p => p.1 == k) then some (k, v) else none := by
  induction l with
  | nil => rfl
  | cons p t ih =>
    rw [List.map_cons, List.find?_cons, List.any_cons]
    by_cases hk : p.1 = k
    · have hb : (p.1 == k) = true := beq_iff_eq.mpr hk
      rw [hb, if_pos rfl]
      simp
    · have hb : (p.1 == k) = false := beq_eq_false_iff_ne.mpr hk
      rw [hb]
      simp only [Bool.false_eq_true, ite_false, Bool.false_or]
      rw [hb, ih]

/-- Overwriting property of the lookup-table write. -/
theorem lookupGet_setKey (l : List (String × Obj)) (k : String) (v : Obj) (f : String) :
    lookupGet (setKey l k v) f = if f = k then v else lookupGet l f := by
  unfold setKey lookupGet
  by_cases hany : l.any (fun p => p.1 == k)
  · rw [if_pos hany]
    by_cases hf : f = k
    · subst hf
      rw [find?_map_overwrite_eq, if_pos hany]
      simp
    · rw [find?_map_overwrite_ne l k v f hf, if_neg hf]
  · rw [if_neg hany]
    rw [List.find?_append]
    by_cases hf : f = k
    · subst hf
      have hnone : l.find? (fun p => p.1 == f) = none := by
        rw [List.find?_eq_none]
        intro p hp
        intro hb
        exact hany (List.any_eq_true.mpr ⟨p, hp, hb⟩)
      rw [hnone]
      simp [List.find?_cons]
    · have h1 : (k == f) = false := beq_eq_false_iff_ne.mpr (Ne.symm hf)
      rw [if_neg hf]
      cases hl : l.find? (fun p => p.1 == f)
      · simp [List.find?_cons, h1]
      · simp

theorem buildLookup_concat (l : List Obj) (r : Obj) :
    buildLookup (l ++ [r]) = setKey (buildLookup l) (rowKey r) r := by
  unfold buildLookup
  rw [List.foldl_append]
  rfl

/-- Last-write-wins lookup: the match for a key is the *last* school row whose
`student_id` equals the key, or the empty object when none exists. -/
theorem lookupGet_buildLookup (schools : List Obj) (k : String) :
    lookupGet (buildLookup schools) k =
      ((schools.filter (fun r => rowKey r == k)).getLast?).getD [] := by
  induction schools using List.reverseRecOn with
  | nil => rfl
  | append_singleton l r ih =>
    rw [buildLookup_concat, lookupGet_setKey, List.filter_append]
    by_cases h : rowKey r = k
    · have hb : (rowKey r == k) = true := beq_iff_eq.mpr h
      rw [if_pos (Eq.symm h)]
      rw [show List.filter (fun r => rowKey r == k) [r] = [r] by simp [hb]]
      rw [List.getLast?_concat]
      rfl
    · have hb : (rowKey r == k) = false := beq_eq_false_iff_ne.mpr h
      rw [if_neg (fun hh => h (Eq.symm hh))]
      rw [show List.filter (fun r => rowKey r == k) [r] = [] by simp [hb]]
      rw [List.append_nil, ih]

end Merge

/-! ### Concrete tables for the claim scenarios -/

/-- The 22 student-schema field names as the spec lists them
(`student_id` .. `economic_disadvantage`, all with underscores). -/
def c1SpecHeader : List Cell :=
  (["student_id", "district_id", "district_name", "school_id", "school_name",
    "current_grade_level", "gender", "ethnicity", "ell", "iep", "gifted_flag",
    "homeless_flag", "ela_state_score_two_years_ago", "ela_state_score_one_year_ago",
    "ela_state_score_current_year", "math_state_score_two_years_ago",
    "math_state_score_one_year_ago", "math_state_score_current_year",
    "performance_level_prior_year", "performance_level_current_year", "disability",
    "economic_disadvantage"]).map some

/-- The header the strict copy itself expects: identical except the last name,
"economic disadvantage" with a literal space. -/
def c1StrictHeader : List Cell := Strict.expectedHeaders.map some

/-- The single data row of the scenario. -/
def c1Row : List Cell :=
  (["1234567890", "1234567", "Example Dist", "123456", "Example School", "8", "Male",
    "Hispanic", "TRUE", "FALSE", "FALSE", "FALSE", "700", "710", "720", "700", "710",
    "720", "proficient", "proficient", "FALSE", "TRUE"]).map some

/-- C1: on the header spelled as the spec lists the fields, the strict-policy
validator reports the header "economic disadvantage" missing and does not
produce a valid report. -/
theorem C1_counterexample :
    Strict.validateData [c1SpecHeader, c1Row] =
      SchoolResult.headerError ["economic disadvantage"] ∧
    Strict.validateData [c1SpecHeader, c1Row] ≠ SchoolResult.report [] := by
  have h : Strict.validateData [c1SpecHeader, c1Row] =
      SchoolResult.headerError ["economic disadvantage"] := by decide
  refine ⟨h, ?_⟩
  rw [h]
  simp

/-- C1 (amended): with the last header field spelled "economic disadvantage"
(the name the strict copy expects) the strict validator accepts the scenario
row, and the refactor (lenient) validator accepts it under the underscore
spelling. -/
theorem C1_strict_scenario_valid :
    Strict.validateData [c1StrictHeader, c1Row] = SchoolResult.report [] ∧
    Refactor.validateSchoolData [c1SpecHeader, c1Row] = SchoolResult.report [] := by
  constructor <;> decide

/-- C3: the provider row loop crashes (TypeError) on a data row that omits the
trailing cells from `session_topic` on, while rows missing only
`session_date`, `session_duration` and `tutor_id` cells complete normally
with one per-field error each. -/
theorem C3_short_row_crash :
    Provider.validateProviderData [Provider.expectedHeaders.map some, [some "123"]] =
      ProviderResult.crash ∧
    Provider.rowCheck Provider.expectedHeaders 2 [some "123", some "math"] =
      Except.ok ["Row 2: Invalid session_date \"undefined\"",
        "Row 2: Invalid session_duration \"undefined\"",
        "Row 2: Invalid tutor_id \"undefined\""] :=
  ⟨by decide, rfl⟩

/-- C4: on the cell "-5" the refactor current-grade validator (which tests
`intValue < -10`) accepts, while the strict copy and the message of both copies
demand an integer between 0 and 12. -/
theorem C4_grade_check_eval :
    Refactor.fieldCheck "current_grade_level" (some "-5") = none ∧
    Strict.fieldCheck "current_grade_level" (some "-5") =
      some "Invalid current_grade_level \"-5\" (should be integer between 0 and 12)" ∧
    jsParseInt "-5" = some (-5) :=
  ⟨by decide, by decide, by decide⟩

/-- The session-schema scenario table of the spec: valid topic in mixed case,
impossible calendar date 2024-02-30. -/
def c5Table : List (List Cell) :=
  [Provider.expectedHeaders.map some,
   (["123", "Math", "2024-02-30", "45", "T1"]).map some]

/-- C5: a session date is accepted exactly when it matches the YYYY-MM-DD
pattern and its components survive the `new Date` round-trip; the topic is
matched case-insensitively against math/ela; and the scenario row yields
exactly one error, citing the session date. -/
theorem C5_session_date :
    (∀ (n : Nat) (v : Cell),
        Provider.sessionDateErrors n v = [] ↔
          (Provider.matchesDatePattern (jsToString v) = true ∧
           jsDateRoundTrip (Provider.dateParts (jsToString v)).1
             (Provider.dateParts (jsToString v)).2.1
             (Provider.dateParts (jsToString v)).2.2 = true)) ∧
    (∀ (n : Nat) (t : String),
        Provider.topicErrors n t = [] ↔ (jsToLower t = "math" ∨ jsToLower t = "ela")) ∧
    Provider.validateProviderData c5Table =
      ProviderResult.report ["Row 2: Invalid session_date \"2024-02-30\""] := by
  refine ⟨?_, ?_, by decide⟩
  · intro n v
    unfold Provider.sessionDateErrors
    cases hp : Provider.matchesDatePattern (jsToString v)
    · simp [hp]
    · cases hr : jsDateRoundTrip (Provider.dateParts (jsToString v)).1
        (Provider.dateParts (jsToString v)).2.1 (Provider.dateParts (jsToString v)).2.2 <;>
        simp [hp, hr]
  · intro n t
    unfold Provider.topicErrors
    split_ifs with h
    · refine iff_of_true rfl ?_
      simpa using h
    · refine iff_of_false (by simp) ?_
      simpa using h

/-- C2: the header check reports exactly the expected names absent from the
trimmed header row, as a sublist of the schema (declaration order); extra
columns never create a missing entry; and each validator, given more than one
row and a nonempty missing list, returns the header error — so row validation
never runs. -/
theorem C2_header_conformance :
    (∀ expected headers : List String,
        (∀ f, f ∈ missingHeaders expected headers ↔ f ∈ expected ∧ f ∉ headers) ∧
        (missingHeaders expected headers).Sublist expected) ∧
    (∀ expected headers extra : List String,
        missingHeaders expected headers = [] →
        missingHeaders expected (headers ++ extra) = []) ∧
    (∀ rows : List (List Cell), 1 < rows.length →
        missingHeaders Strict.expectedHeaders (headersOf rows) ≠ [] →
        Strict.validateData rows =
          SchoolResult.headerError (missingHeaders Strict.expectedHeaders (headersOf rows))) ∧
    (∀ rows : List (List Cell), 1 < rows.length →
        missingHeaders Refactor.expectedHeaders (headersOf rows) ≠ [] →
        Refactor.validateSchoolData rows =
          SchoolResult.headerError (missingHeaders Refactor.expectedHeaders (headersOf rows))) ∧
    (∀ rows : List (List Cell), 1 < rows.length →
        missingHeaders Provider.expectedHeaders (headersOf rows) ≠ [] →
        Provider.validateProviderData rows =
          ProviderResult.headerError (missingHeaders Provider.expectedHeaders (headersOf rows))) := by
  refine ⟨?_, ?_, ?_, ?_, ?_⟩
  · intro expected headers
    constructor
    · intro f
      simp [missingHeaders, List.mem_filter]
    · exact List.filter_sublist expected
  · intro expected headers extra hnone
    rw [List.eq_nil_iff_forall_not_mem] at hnone ⊢
    intro f hf
    have h1 : f ∈ expected ∧ f ∉ headers ++ extra := by
      simpa [missingHeaders, List.mem_filter] using hf
    by_cases h2 : f ∈ headers
    · exact h1.2 (List.mem_append_left extra h2)
    · exact hnone f (by simpa [missingHeaders, List.mem_filter] using ⟨h1.1, h2⟩)
  · intro rows h1 h2
    unfold Strict.validateData
    rw [if_neg (by omega), if_neg (by simpa [List.isEmpty_iff] using h2)]
  · intro rows h1 h2
    unfold Refactor.validateSchoolData
    rw [if_neg (by omega), if_neg (by simpa [List.isEmpty_iff] using h2)]
  · intro rows h1 h2
    unfold Provider.validateProviderData
    rw [if_neg (by omega), if_neg (by simpa [List.isEmpty_iff] using h2)]

/-- Witness for C2 at a concrete table: a provider file supplying only the
`student_id` column is rejected with exactly the four other fields, in schema
order. -/
theorem C2_witness :
    ((1 : Nat) < ([[some "student_id"], [some "1"]] : List (List Cell)).length ∧
      missingHeaders Provider.expectedHeaders (headersOf [[some "student_id"], [some "1"]]) ≠ []) ∧
    Provider.validateProviderData [[some "student_id"], [some "1"]] =
      ProviderResult.headerError
        ["session_topic", "session_date", "session_duration", "tutor_id"] :=
  ⟨⟨by decide, by decide⟩,
    (C2_header_conformance.2.2.2.2 [[some "student_id"], [some "1"]] (by decide)
        (by decide)).trans (congrArg ProviderResult.headerError (by decide))⟩

/-- Left table of the merge counterexample: the first row has no key match. -/
def c6Left : List Merge.Obj :=
  [[("student_id", "200"), ("a", "x")], [("student_id", "100"), ("a", "y")]]

/-- Right table of the merge counterexample: one row, keyed 100, with a
right-only column. -/
def c6Right : List Merge.Obj := [[("student_id", "100"), ("extra", "z")]]

/-- C6: when the first left row has no key match, the output header is the left
keys only — the right-only column "extra" is dropped, so the header is not the
union of both headers. -/
theorem C6_counterexample :
    Merge.mergedFields c6Left c6Right = ["student_id", "a"] ∧
    "extra" ∉ Merge.mergedFields c6Left c6Right ∧
    "extra" ∈ Merge.keys [("student_id", "100"), ("extra", "z")] := by
  refine ⟨by decide, ?_, by decide⟩
  rw [show Merge.mergedFields c6Left c6Right = ["student_id", "a"] from by decide]
  decide

/-- C6 (amended): one output row per left row; the spread overlays left fields
with the matching right fields (right wins on collision); the lookup keeps the
*last* right row per key; an unmatched left row keeps exactly its own fields;
the key list of a spread is left keys then right-only keys; and the output
header is the key list of the *first* merged row (empty for an empty left
table) rather than the union of the two table headers. -/
theorem C6_merge_amended :
    (∀ providers schools : List Merge.Obj,
        (Merge.mergeRows providers schools).length = providers.length) ∧
    (∀ (a b : Merge.Obj) (f : String),
        Merge.objGet (Merge.spreadMerge a b) f = (Merge.objGet b f).or (Merge.objGet a f)) ∧
    (∀ a : Merge.Obj, Merge.spreadMerge a [] = a) ∧
    (∀ (schools : List Merge.Obj) (k : String),
        Merge.lookupGet (Merge.buildLookup schools) k =
          ((schools.filter (fun r => Merge.rowKey r == k)).getLast?).getD []) ∧
    (∀ a b : Merge.Obj,
        Merge.keys (Merge.spreadMerge a b) =
          Merge.keys a ++ (Merge.keys b).filter (fun k => !((Merge.keys a).contains k))) ∧
    (∀ (p : Merge.Obj) (rest schools : List Merge.Obj),
        Merge.mergedFields (p :: rest) schools =
          Merge.keys (Merge.spreadMerge p
            (Merge.lookupGet (Merge.buildLookup schools) (Merge.rowKey p)))) ∧
    (∀ schools : List Merge.Obj, Merge.mergedFields [] schools = []) := by
  refine ⟨?_, ?_, ?_, ?_, ?_, ?_, ?_⟩
  · intro providers schools
    unfold Merge.mergeRows
    exact List.length_map providers _
  · exact Merge.objGet_spreadMerge
  · exact Merge.spreadMerge_nil
  · exact Merge.lookupGet_buildLookup
  · exact Merge.keys_spreadMerge
  · intro p rest schools
    unfold Merge.mergedFields Merge.mergeRows
    simp
  · intro schools
    rfl

/-- C7: on a header-only table the emitted percent is the JS `NaN` (modelled
`none`), not 0 as the claim defines. -/
theorem C7_counterexample :
    Summary.generateOutput [[some "a"]] ["a"] = (0, [("a", (none : Option ℚ))]) ∧
    (none : Option ℚ) ≠ some 0 := by
  exact ⟨rfl, by simp⟩

/-- C7 (amended): the percent is `NaN` exactly when there are zero data rows;
with at least one data row it is the ratio times 100 rounded to two decimals;
and a table with more than one row (the only kind the validators hand to the
summary generators) never receives a `NaN` percent. -/
theorem C7_percent_amended (rows : List (List Cell)) (headers : List String)
    (h : 1 < rows.length) :
    (∀ n : Nat, Summary.percentComplete n 0 = none) ∧
    (∀ n total : Nat, 0 < total →
        Summary.percentComplete n total =
          some (Summary.toFixed2 ((n : ℚ) / (total : ℚ) * 100))) ∧
    (∀ pr ∈ (Summary.generateOutput rows headers).2, (pr.2).isSome) := by
  refine ⟨fun n => by simp [Summary.percentComplete], ?_, ?_⟩
  · intro n total ht
    unfold Summary.percentComplete
    rw [if_neg (by omega)]
  · intro pr hpr
    unfold Summary.generateOutput at hpr
    simp only [List.mem_map] at hpr
    rcases hpr with ⟨q, _, rfl⟩
    have htot : ¬((rows.drop 1).length = 0) := by
      rw [List.length_drop]
      omega
    unfold Summary.percentComplete
    rw [if_neg htot]
    rfl

/-- Witness for C7 at a concrete table with one data row: the emitted percent
is defined (not `NaN`). -/
theorem C7_witness :
    ((1 : Nat) < ([[some "a"], [some "x"]] : List (List Cell)).length) ∧
    (∀ pr ∈ (Summary.generateOutput [[some "a"], [some "x"]] ["a"]).2, (pr.2).isSome) :=
  ⟨by decide,
    (C7_percent_amended [[some "a"], [some "x"]] ["a"] (by decide)).2.2⟩

/-- C8: for a strict school table past the header check, the final report is
the row errors followed by exactly one aggregate error per violated cardinality
limit — present iff the distinct observed values of the column exceed the limit
(10 for ethnicity, 6 for each performance level), each naming the field and the
observed count. -/
theorem C8_cardinality (rows : List (List Cell))
    (h1 : 1 < rows.length)
    (h2 : missingHeaders Strict.expectedHeaders (headersOf rows) = []) :
    Strict.validateData rows = SchoolResult.report
      ((taggedErrors Strict.fieldCheck Strict.expectedHeaders (headersOf rows)
          (rows.drop 1)).map renderTagged ++
        ((if 10 < distinctCount (headersOf rows) (rows.drop 1) "ethnicity" then
            ["The \x27ethnicity\x27 column has more than 10 unique values (" ++
              toString (distinctCount (headersOf rows) (rows.drop 1) "ethnicity") ++ ")"]
          else []) ++
         (if 6 < distinctCount (headersOf rows) (rows.drop 1) "performance_level_prior_year" then
            ["The \x27performance_level_prior_year\x27 column has more than 6 unique values (" ++
              toString (distinctCount (headersOf rows) (rows.drop 1)
                "performance_level_prior_year") ++ ")"]
          else []) ++
         (if 6 < distinctCount (headersOf rows) (rows.drop 1) "performance_level_current_year" then
            ["The \x27performance_level_current_year\x27 column has more than 6 unique values (" ++
              toString (distinctCount (headersOf rows) (rows.drop 1)
                "performance_level_current_year") ++ ")"]
          else []))) := by
  unfold Strict.validateData
  rw [if_neg (by omega), if_pos (by simp [h2])]
  dsimp only
  rw [processRows_errors]
  unfold Strict.aggErrors
  rw [processRows_eth_length Strict.fieldCheck Strict.expectedHeaders (headersOf rows)
      (rows.drop 1) (by decide),
    processRows_perfPrior_length Strict.fieldCheck Strict.expectedHeaders (headersOf rows)
      (rows.drop 1) (by decide),
    processRows_perfCurr_length Strict.fieldCheck Strict.expectedHeaders (headersOf rows)
      (rows.drop 1) (by decide)]

/-- One valid data row of the cardinality scenario, with a chosen ethnicity. -/
def c8Row (e : String) : List Cell :=
  (["1234567890", "1234567", "D", "123456", "S", "8", "Male", e, "TRUE", "FALSE", "FALSE",
    "FALSE", "700", "710", "720", "700", "710", "720", "p1", "p1", "FALSE", "TRUE"]).map some

/-- The cardinality scenario: strict header plus eleven otherwise-valid rows
with eleven distinct ethnicities. -/
def c8Table : List (List Cell) :=
  c1StrictHeader ::
    (["e1", "e2", "e3", "e4", "e5", "e6", "e7", "e8", "e9", "e10", "e11"].map c8Row)

/-- Witness for C8: the scenario table yields exactly one aggregate error,
naming ethnicity and the count 11. -/
theorem C8_witness :
    ((1 : Nat) < c8Table.length ∧
      missingHeaders Strict.expectedHeaders (headersOf c8Table) = []) ∧
    Strict.validateData c8Table = SchoolResult.report
      ["The \x27ethnicity\x27 column has more than 10 unique values (11)"] :=
  ⟨⟨by decide, by decide⟩,
    (C8_cardinality c8Table (by decide) (by decide)).trans (by decide)⟩

/-- C9: the tagged row errors of any row loop are pairwise ordered by
(ascending row number, then schema field declaration order), and each school
validator past the header check reports exactly those rendered row errors
followed by the aggregate errors. -/
theorem C9_error_ordering (rows : List (List Cell)) (h1 : 1 < rows.length) :
    (∀ (check : String → Cell → Option String) (expected headers : List String)
        (dataRows : List (List Cell)),
        (taggedErrors check expected headers dataRows).Pairwise tagLt) ∧
    (missingHeaders Strict.expectedHeaders (headersOf rows) = [] →
      Strict.validateData rows = SchoolResult.report
        ((taggedErrors Strict.fieldCheck Strict.expectedHeaders (headersOf rows)
            (rows.drop 1)).map renderTagged ++
          Strict.aggErrors
            (processRows Strict.fieldCheck Strict.expectedHeaders (headersOf rows)
              (rows.drop 1)))) ∧
    (missingHeaders Refactor.expectedHeaders (headersOf rows) = [] →
      Refactor.validateSchoolData rows = SchoolResult.report
        ((taggedErrors Refactor.fieldCheck Refactor.expectedHeaders (headersOf rows)
            (rows.drop 1)).map renderTagged ++
          Refactor.aggErrors
            (processRows Refactor.fieldCheck Refactor.expectedHeaders (headersOf rows)
              (rows.drop 1)))) := by
  refine ⟨taggedErrors_pairwise, ?_, ?_⟩
  · intro h2
    unfold Strict.validateData
    rw [if_neg (by omega), if_pos (by simp [h2])]
    dsimp only
    rw [processRows_errors]
  · intro h2
    unfold Refactor.validateSchoolData
    rw [if_neg (by omega), if_pos (by simp [h2])]
    dsimp only
    rw [processRows_errors]

/-- A strict table with errors in two rows and several fields, for the C9
witness: row 2 has a bad student id and grade, row 3 a bad gender. -/
def c9Table : List (List Cell) :=
  [c1StrictHeader,
   (["12345", "1234567", "D", "123456", "S", "99", "Male", "H", "TRUE", "FALSE", "FALSE",
     "FALSE", "700", "710", "720", "700", "710", "720", "p1", "p1", "FALSE", "TRUE"]).map some,
   (["1234567890", "1234567", "D", "123456", "S", "8", "male", "H", "TRUE", "FALSE", "FALSE",
     "FALSE", "700", "710", "720", "700", "710", "720", "p1", "p1", "FALSE", "TRUE"]).map some]

/-- Witness for C9: the rendered report of the concrete table lists the row-2
errors in schema order, then the row-3 error, and no aggregate errors. -/
theorem C9_witness :
    ((1 : Nat) < c9Table.length ∧
      missingHeaders Strict.expectedHeaders (headersOf c9Table) = []) ∧
    Strict.validateData c9Table = SchoolResult.report
      ["Row 2: Invalid student_id \"12345\" (should be a 10-digit number)",
       "Row 2: Invalid current_grade_level \"99\" (should be integer between 0 and 12)",
       "Row 3: Invalid gender \"male\" (should be \"Male\" or \"Female\")"] ∧
    (taggedErrors Strict.fieldCheck Strict.expectedHeaders (headersOf c9Table)
        (c9Table.drop 1)).Pairwise tagLt :=
  ⟨⟨by decide, by decide⟩,
    ((C9_error_ordering c9Table (by decide)).2.1 (by decide)).trans (by decide),
    (C9_error_ordering c9Table (by decide)).1 Strict.fieldCheck Strict.expectedHeaders
      (headersOf c9Table) (c9Table.drop 1)⟩

/-- C10: every student-schema numeric range validator decides acceptance by
`parseInt`: whenever the cell has a parsed leading integer, acceptance is
exactly that integer being in the validator bounds — [650, 800] for the six
strict score fields, [0, 12] for the strict grade, [0, 10000] (resp. [0, 800]
for the math current-year score, [-10, 12] for the grade) in the refactor copy.
Consequently non-integer cells such as "700.5" and "700abc" are accepted as
state scores. -/
theorem C10_parseInt_range (v : Cell) (n : Int)
    (h : jsParseInt (jsToString v) = some n) :
    (∀ field, Strict.scoreCheck field v = none ↔ (650 ≤ n ∧ n ≤ 800)) ∧
    (Strict.fieldCheck "current_grade_level" v = none ↔ (0 ≤ n ∧ n ≤ 12)) ∧
    (∀ field, Refactor.scoreCheckWide field v = none ↔ (0 ≤ n ∧ n ≤ 10000)) ∧
    (Refactor.scoreCheckMathCurr v = none ↔ (0 ≤ n ∧ n ≤ 800)) ∧
    (Refactor.fieldCheck "current_grade_level" v = none ↔ (-10 ≤ n ∧ n ≤ 12)) ∧
    (Strict.fieldCheck "ela_state_score_current_year" (some "700.5") = none ∧
     Strict.fieldCheck "math_state_score_current_year" (some "700abc") = none ∧
     Refactor.fieldCheck "ela_state_score_current_year" (some "700.5") = none ∧
     isDigitRun "700.5" = false ∧ isDigitRun "700abc" = false) := by
  refine ⟨?_, ?_, ?_, ?_, ?_, by decide, by decide, by decide, by decide, by decide⟩
  · intro field
    unfold Strict.scoreCheck
    rw [h]
    dsimp only
    by_cases h1 : n < 650
    · rw [if_pos (by simp [h1])]
      exact iff_of_false (by simp) (by omega)
    · by_cases h2 : 800 < n
      · rw [if_pos (by simp [h2])]
        exact iff_of_false (by simp) (by omega)
      · rw [if_neg (by simp [h1, h2])]
        exact iff_of_true rfl (by omega)
  · have hd : Strict.fieldCheck "current_grade_level" v =
        (match jsParseInt (jsToString v) with
         | none => some ("Invalid current_grade_level \"" ++ jsToString v ++
             "\" (should be integer between 0 and 12)")
         | some k => if k < 0 || 12 < k then
             some ("Invalid current_grade_level \"" ++ jsToString v ++
               "\" (should be integer between 0 and 12)")
           else none) := rfl
    rw [hd, h]
    dsimp only
    by_cases h1 : n < 0
    · rw [if_pos (by simp [h1])]
      exact iff_of_false (by simp) (by omega)
    · by_cases h2 : 12 < n
      · rw [if_pos (by simp [h2])]
        exact iff_of_false (by simp) (by omega)
      · rw [if_neg (by simp [h1, h2])]
        exact iff_of_true rfl (by omega)
  · intro field
    unfold Refactor.scoreCheckWide
    rw [h]
    dsimp only
    by_cases h1 : n < 0
    · rw [if_pos (by simp [h1])]
      exact iff_of_false (by simp) (by omega)
    · by_cases h2 : 10000 < n
      · rw [if_pos (by simp [h2])]
        exact iff_of_false (by simp) (by omega)
      · rw [if_neg (by simp [h1, h2])]
        exact iff_of_true rfl (by omega)
  · unfold Refactor.scoreCheckMathCurr
    rw [h]
    dsimp only
    by_cases h1 : n < 0
    · rw [if_pos (by simp [h1])]
      exact iff_of_false (by simp) (by omega)
    · by_cases h2 : 800 < n
      · rw [if_pos (by simp [h2])]
        exact iff_of_false (by simp) (by omega)
      · rw [if_neg (by simp [h1, h2])]
        exact iff_of_true rfl (by omega)
  · have hd : Refactor.fieldCheck "current_grade_level" v =
        (match jsParseInt (jsToString v) with
         | none => some ("Invalid current_grade_level \"" ++ jsToString v ++
             "\" (should be integer between 0 and 12)")
         | some k => if k < -10 || 12 < k then
             some ("Invalid current_grade_level \"" ++ jsToString v ++
               "\" (should be integer between 0 and 12)")
           else none) := rfl
    rw [hd, h]
    dsimp only
    by_cases h1 : n < -10
    · rw [if_pos (by simp [h1])]
      exact iff_of_false (by simp) (by omega)
    · by_cases h2 : 12 < n
      · rw [if_pos (by simp [h2])]
        exact iff_of_false (by simp) (by omega)
      · rw [if_neg (by simp [h1, h2])]
        exact iff_of_true rfl (by omega)

/-- Witness for C10: the non-integer string "700.5" parses to 700, and the
strict score validator accepts it. -/
theorem C10_witness :
    jsParseInt (jsToString (some "700.5")) = some 700 ∧
    (Strict.scoreCheck "ela_state_score_current_year" (some "700.5") = none ↔
      (650 ≤ (700 : Int) ∧ (700 : Int) ≤ 800)) :=
  ⟨by decide, (C10_parseInt_range (some "700.5") 700 (by decide)).1 "ela_state_score_current_year"⟩
